import Mathlib

/-
  Verification development for the stargazer backend (src/backend/app.py).

  The conversational endpoints (chat_gemini for POST /api/chat/send,
  chat_history_list for GET /api/chat/list, summarize for POST /api/summarize)
  and the 429 handler (ratelimit_handler) are shallowly embedded as pure Lean
  functions.  External collaborators (the redis client, the generative-chat
  backend) are modelled as oracles: each request carries an environment value
  describing how each external call would behave on this request, and the
  handler is a function of the request, the visitor session, the cache state
  and that environment.  The side effects a request performs are returned as an
  explicit trace.
-/

namespace Stargazer

/-- Raw byte payload stored in the cache, as a list of naturals. -/
abbrev Bytes := List Nat

/-- Modelled from the spec: one exchange unit in a conversation (spec section 3);
the concrete class comes from the external google-generativeai library, which is
not part of this repository.  A turn has a role and an ordered sequence of text
fragments. -/
structure Turn where
  role : String
  parts : List String
deriving DecidableEq

/-- Modelled from the spec: an ordered sequence of turns (spec section 3). -/
abbrev ConversationHistory := List Turn

/-- Concatenation of the encodings of the elements of a list. -/
def concatMap (f : α → Bytes) : List α → Bytes
  | [] => []
  | a :: as => f a ++ concatMap f as

/-- Modelled from the spec: the history codec (spec section 4.2) is realised in
the source by pickle.dumps / pickle.loads, an external library; here a string is
encoded as its length followed by its character codepoints. -/
def encodeStr (s : String) : Bytes :=
  s.data.length :: s.data.map Char.toNat

/-- Decode a single character from the front of a byte stream. -/
def decodeChar : Bytes → Option (Char × Bytes)
  | [] => none
  | c :: rest => some (Char.ofNat c, rest)

/-- Decode a counted sequence of values with a given element decoder. -/
def decodeCount (d : Bytes → Option (α × Bytes)) : Nat → Bytes → Option (List α × Bytes)
  | 0, bs => some ([], bs)
  | n + 1, bs =>
    match d bs with
    | none => none
    | some (a, bs₁) =>
      match decodeCount d n bs₁ with
      | none => none
      | some (as, bs₂) => some (a :: as, bs₂)

/-- Modelled from the spec: inverse of encodeStr on the front of a stream. -/
def decodeStr : Bytes → Option (String × Bytes)
  | [] => none
  | n :: bs =>
    match decodeCount decodeChar n bs with
    | none => none
    | some (cs, rest) => some (String.mk cs, rest)

/-- Modelled from the spec: a turn is encoded as its role followed by its
counted sequence of parts. -/
def encodeTurn (t : Turn) : Bytes :=
  encodeStr t.role ++ (t.parts.length :: concatMap encodeStr t.parts)

/-- Modelled from the spec: inverse of encodeTurn on the front of a stream. -/
def decodeTurn (bs : Bytes) : Option (Turn × Bytes) :=
  match decodeStr bs with
  | none => none
  | some (r, bs₁) =>
    match bs₁ with
    | [] => none
    | n :: bs₂ =>
      match decodeCount decodeStr n bs₂ with
      | none => none
      | some (ps, bs₃) => some (⟨r, ps⟩, bs₃)

/-- Modelled from the spec: encoding of a whole conversation history, standing
for pickle.dumps at src/backend/app.py line 158. -/
def encodeHistory (h : ConversationHistory) : Bytes :=
  h.length :: concatMap encodeTurn h

/-- Modelled from the spec: decoding of a stored payload, standing for
pickle.loads at src/backend/app.py lines 148 and 181; a result of none models
pickle.loads raising (the MalformedHistory condition of spec section 4.2). -/
def decodeHistory (bs : Bytes) : Option ConversationHistory :=
  match bs with
  | [] => none
  | n :: rest =>
    match decodeCount decodeTurn n rest with
    | some (h, []) => some h
    | _ => none

/-- An element decoder inverts an element encoder on the front of any stream. -/
def RoundTrips (enc : α → Bytes) (dec : Bytes → Option (α × Bytes)) : Prop :=
  ∀ a rest, dec (enc a ++ rest) = some (a, rest)

/-! ## The external cache

State of the redis store: an association list from keys to a stored payload and
its absolute expiry instant.  setex mirrors redis_client.setex at
src/backend/app.py line 158: it overwrites the value and resets the expiry to a
point one TTL after the write instant. -/

/-- State of the external key-value store. -/
structure CacheState where
  entries : List (String × Bytes × Nat)
deriving DecidableEq

/-- Stored payload and expiry instant for a key, if present. -/
def CacheState.lookup (c : CacheState) (k : String) : Option (Bytes × Nat) :=
  (c.entries.find? (fun e => e.1 == k)).map (fun e => e.2)

/-- redis setex: overwrite the value under a key and reset its expiry to
now + ttl (src/backend/app.py line 158). -/
def CacheState.setex (c : CacheState) (k : String) (ttl : Nat) (v : Bytes) (now : Nat) :
    CacheState :=
  ⟨(k, v, now + ttl) :: c.entries.filter (fun e => e.1 != k)⟩

/-- The cache with no entries. -/
def emptyCache : CacheState := ⟨[]⟩

/-! ## Effects, oracle environments and responses -/

/-- One observable side effect performed by a request. -/
inductive Effect
  | cacheGet (key : String)
  | cacheSet (key : String) (ttl : Nat) (value : Bytes)
  | sessionBind (key : String)
  | chatCreate (resume : Bool)
  | chatSend (message : String)
deriving DecidableEq

/-- Semantics of one effect on the cache state; only a cache write changes it. -/
def applyEffect (now : Nat) (c : CacheState) : Effect → CacheState
  | Effect.cacheSet k ttl v => c.setex k ttl v now
  | _ => c

/-- Semantics of a whole trace of effects on the cache state. -/
def applyEffects (now : Nat) (c : CacheState) (tr : List Effect) : CacheState :=
  tr.foldl (applyEffect now) c

/-- How the redis get behaves on this request: a clean return of the stored
value, a UnicodeDecodeError whose object attribute carries raw bytes (the
decode-error path of src/backend/app.py lines 142-145 and 175-178), or any
other exception. -/
inductive GetOutcome
  | ok
  | unicodeErr (obj : Bytes)
  | raiseErr
deriving DecidableEq

/-- How chat.send_message behaves on this request: a reply together with the
chat handle's updated history, a StopCandidateException, or any other
exception. -/
inductive SendOutcome
  | reply (text : String) (newHistory : ConversationHistory)
  | stopCandidate
  | raiseErr
deriving DecidableEq

/-- Whether an external call (create_chat, setex) returns or raises. -/
inductive CallOutcome
  | ok
  | raiseErr
deriving DecidableEq

/-- Oracle describing how each external call would behave during one
POST /api/chat/send request. -/
structure ChatEnv where
  getOutcome : GetOutcome
  createOutcome : CallOutcome
  newChatID : String
  sendOutcome : SendOutcome
  setexOutcome : CallOutcome
deriving DecidableEq

/-- A JSON object response together with its HTTP status. -/
structure ChatResp where
  message : String
  status : Nat
deriving DecidableEq

/-- An apostrophe character, used inside fixed response strings. -/
def apos : String := Char.toString (Char.ofNat 39)

/-- Fixed response of the expired-session short circuit (app.py line 147). -/
def expiredMsg : String := "Your session has expired. Please try again later."

/-- Fixed response of the StopCandidateException handler (app.py line 162). -/
def cannotAnswerMsg : String := "I cannot answer that."

/-- Fixed response of the catch-all exception handler (app.py line 167). -/
def outOfServiceMsg : String :=
  "It seems we" ++ apos ++ "re out of service at the moment, try again later."

/-- Fixed error payload of the summarize catch-all handler (app.py line 206). -/
def summarizeErrMsg : String := "an internal server error occured, try again later"

/-! ## Request parsing -/

/-- A JSON object body, restricted to string fields. -/
abbrev Json := List (String × String)

/-- Python dict.get on a JSON object. -/
def jsonGet (j : Json) (k : String) : Option String :=
  (j.find? (fun p => p.1 == k)).map Prod.snd

/-- Python truthiness of request.get_json(): none models a missing or
non-JSON body, an empty object is falsy. -/
def truthyJson : Option Json → Bool
  | none => false
  | some j => !j.isEmpty

/-- Python truthiness of an optional string field: missing or empty is falsy. -/
def truthyStr : Option String → Bool
  | none => false
  | some s => !s.isEmpty

/-- Python truthiness of an optional byte payload: missing or empty is falsy. -/
def truthyBytes : Option Bytes → Bool
  | none => false
  | some b => !b.isEmpty

/-! ## The handlers -/

/-- HOUR_TIMEDELTA (app.py line 27) measured in seconds. -/
def HOUR_TIMEDELTA : Nat := 3600

/-- The guarded redis get of app.py lines 142-145 and 175-178: a clean get
yields the stored value, a UnicodeDecodeError is caught and its raw object
bytes are used instead, and any other exception escapes the inner try. -/
def fetchPayload (stored : Option Bytes) : GetOutcome → Except Unit (Option Bytes)
  | GetOutcome.ok => Except.ok stored
  | GetOutcome.unicodeErr obj => Except.ok (some obj)
  | GetOutcome.raiseErr => Except.error ()

/-- Lines 155-159 of app.py: send the message, then on success assign
session["chatID"] and only afterwards perform the setex; a
StopCandidateException or any other exception is caught by the handler's own
except clauses.  Returns the response, the session chatID after the request,
and the effect trace (appended to the effects already performed). -/
def sendPhase (q chatID : String) (sess : Option String) (env : ChatEnv)
    (tr : List Effect) : ChatResp × Option String × List Effect :=
  match env.sendOutcome with
  | SendOutcome.stopCandidate =>
      (⟨cannotAnswerMsg, 200⟩, sess, tr ++ [Effect.chatSend q])
  | SendOutcome.raiseErr =>
      (⟨outOfServiceMsg, 200⟩, sess, tr ++ [Effect.chatSend q])
  | SendOutcome.reply text newHist =>
    match env.setexOutcome with
    | CallOutcome.raiseErr =>
        (⟨outOfServiceMsg, 200⟩, some chatID,
          tr ++ [Effect.chatSend q, Effect.sessionBind chatID])
    | CallOutcome.ok =>
        (⟨text, 200⟩, some chatID,
          tr ++ [Effect.chatSend q, Effect.sessionBind chatID,
            Effect.cacheSet chatID HOUR_TIMEDELTA (encodeHistory newHist)])

/-- Lines 146-150 of app.py, after the guarded redis get: a falsy payload short
circuits with the expired-session message; otherwise pickle.loads either raises
(caught by the catch-all, generic message) or yields the history, after which
create_chat resumes the conversation and the message is sent. -/
def resumeAfterFetch (q chatID : String) (sess : Option String) (env : ChatEnv)
    (fetched : Except Unit (Option Bytes)) : ChatResp × Option String × List Effect :=
  match fetched with
  | Except.error _ => (⟨outOfServiceMsg, 200⟩, sess, [Effect.cacheGet chatID])
  | Except.ok payload =>
    if truthyBytes payload then
      match decodeHistory (payload.getD []) with
      | none => (⟨outOfServiceMsg, 200⟩, sess, [Effect.cacheGet chatID])
      | some _ =>
        match env.createOutcome with
        | CallOutcome.raiseErr =>
            (⟨outOfServiceMsg, 200⟩, sess,
              [Effect.cacheGet chatID, Effect.chatCreate true])
        | CallOutcome.ok =>
            sendPhase q chatID sess env [Effect.cacheGet chatID, Effect.chatCreate true]
    else
      (⟨expiredMsg, 200⟩, sess, [Effect.cacheGet chatID])

/-- The POST /api/chat/send handler (app.py lines 124-168).  The whole body sits
in a try whose except clauses catch StopCandidateException and every other
Exception — including the HTTPException raised by abort(415)/abort(400) — and
turn them into a JSON response with status 200.  Returns the response, the
session chatID after the request, and the effect trace. -/
def chat_gemini (body : Option Json) (sess : Option String) (cache : CacheState)
    (env : ChatEnv) : ChatResp × Option String × List Effect :=
  if truthyJson body then
    let query := jsonGet (body.getD []) "message"
    if truthyStr query then
      match sess with
      | some chatID =>
        resumeAfterFetch (query.getD "") chatID (some chatID) env
          (fetchPayload ((cache.lookup chatID).map Prod.fst) env.getOutcome)
      | none =>
        match env.createOutcome with
        | CallOutcome.raiseErr => (⟨outOfServiceMsg, 200⟩, none, [Effect.chatCreate false])
        | CallOutcome.ok =>
            sendPhase (query.getD "") env.newChatID none env [Effect.chatCreate false]
    else
      (⟨outOfServiceMsg, 200⟩, sess, [])
  else
    (⟨outOfServiceMsg, 200⟩, sess, [])

/-- Lines 179-185 of app.py, after the guarded redis get of the list endpoint:
there is no catch-all here, so a pickle.loads failure and any non-Unicode get
exception propagate out of the handler; this is modelled as Except.error 500
(the framework error page).  A turn is rendered with its parts joined by a
single space. -/
def listAfterFetch (chatID : String) (fetched : Except Unit (Option Bytes)) :
    Except Nat (List (String × String)) × List Effect :=
  match fetched with
  | Except.error _ => (Except.error 500, [Effect.cacheGet chatID])
  | Except.ok payload =>
    if truthyBytes payload then
      match decodeHistory (payload.getD []) with
      | none => (Except.error 500, [Effect.cacheGet chatID])
      | some hist =>
          (Except.ok (hist.map (fun t => (t.role, String.intercalate " " t.parts))),
            [Effect.cacheGet chatID])
    else
      (Except.ok [], [Effect.cacheGet chatID])

/-- The GET /api/chat/list handler (app.py lines 171-187). -/
def chat_history_list (sess : Option String) (cache : CacheState) (g : GetOutcome) :
    Except Nat (List (String × String)) × List Effect :=
  match sess with
  | none => (Except.ok [], [])
  | some chatID =>
      listAfterFetch chatID (fetchPayload ((cache.lookup chatID).map Prod.fst) g)

/-- The prompt built by the summarize handler (app.py line 201). -/
def summarizePrompt (url : String) : String :=
  "Please summarize this URL in 50 words: " ++ url

/-- Oracle for one POST /api/summarize request. -/
structure SumEnv where
  createOutcome : CallOutcome
  sendOutcome : SendOutcome
deriving DecidableEq

/-- Response of the summarize handler: a summary payload or an error payload,
each with its HTTP status. -/
inductive SumResp
  | summary (text : String) (status : Nat)
  | failure (text : String) (status : Nat)
deriving DecidableEq

/-- The POST /api/summarize handler (app.py lines 190-206).  Its single except
clause catches every Exception — again including abort(415)/abort(400) and
StopCandidateException — and returns the generic error payload with status
200. -/
def summarize (body : Option Json) (env : SumEnv) : SumResp × List Effect :=
  if truthyJson body then
    let url := jsonGet (body.getD []) "url"
    if truthyStr url then
      match env.createOutcome with
      | CallOutcome.raiseErr => (SumResp.failure summarizeErrMsg 200, [Effect.chatCreate false])
      | CallOutcome.ok =>
        match env.sendOutcome with
        | SendOutcome.reply text _ =>
            (SumResp.summary text 200,
              [Effect.chatCreate false, Effect.chatSend (summarizePrompt (url.getD ""))])
        | _ =>
            (SumResp.failure summarizeErrMsg 200,
              [Effect.chatCreate false, Effect.chatSend (summarizePrompt (url.getD ""))])
    else
      (SumResp.failure summarizeErrMsg 200, [])
  else
    (SumResp.failure summarizeErrMsg 200, [])

/-! ## The 429 handler -/

/-- Microseconds in a day, the modulus of Python timedelta normalisation. -/
def MICROSECONDS_PER_DAY : Int := 86400000000

/-- Microseconds in a second. -/
def MICROSECONDS_PER_SECOND : Int := 1000000

/-- Python timedelta.seconds of a difference of us microseconds: timedelta
normalisation makes the seconds component (total mod one day) div one second,
a value in [0, 86400). -/
def timedeltaSeconds (us : Int) : Int :=
  (us % MICROSECONDS_PER_DAY) / MICROSECONDS_PER_SECOND

/-- The 429 error handler (app.py lines 53-60): instants are in microseconds;
the retry-after value placed in the message is (reset - now).seconds, and the
response status is 429. -/
def ratelimit_handler (now reset : Int) : Int × Nat :=
  (timedeltaSeconds (reset - now), 429)

/-! ## Trace predicates and concrete fixtures -/

/-- Whether an effect is a session bind. -/
def isSessionBind : Effect → Bool
  | Effect.sessionBind _ => true
  | _ => false

/-- Whether an effect is a cache write. -/
def isCacheSet : Effect → Bool
  | Effect.cacheSet _ _ _ => true
  | _ => false

/-- Index of the first effect satisfying a predicate. -/
def idxOfP (p : Effect → Bool) : List Effect → Option Nat
  | [] => none
  | e :: tr => if p e then some 0 else (idxOfP p tr).map (fun n => n + 1)

/-- A trace never performs a cache write before the session bind: whenever a
cache write occurs, a session bind occurs strictly earlier. -/
def bindBeforeSet (tr : List Effect) : Bool :=
  match idxOfP isSessionBind tr, idxOfP isCacheSet tr with
  | some i, some j => decide (i < j)
  | none, some _ => false
  | _, none => true

/-- Every cache write in the trace carries the one-hour TTL. -/
def setsHourTTL : Effect → Bool
  | Effect.cacheSet _ t _ => t == HOUR_TIMEDELTA
  | _ => true

/-- The effect is not a cache write on the given key. -/
def notSetOn (k : String) : Effect → Bool
  | Effect.cacheSet k2 _ _ => !(k2 == k)
  | _ => true

/-- Whether an external call returns rather than raises. -/
def outcomeOk : CallOutcome → Bool
  | CallOutcome.ok => true
  | CallOutcome.raiseErr => false

/-- The request reaches the chat.send_message call of app.py line 155: the body
and message are truthy, create_chat returns, and on the resume path the guarded
get yields a truthy payload that pickle.loads accepts. -/
def reachesSend (b : Option Json) (s : Option String) (c : CacheState) (e : ChatEnv) : Bool :=
  truthyJson b && truthyStr (jsonGet (b.getD []) "message") && outcomeOk e.createOutcome &&
    (match s with
     | none => true
     | some t =>
       match fetchPayload ((c.lookup t).map Prod.fst) e.getOutcome with
       | Except.error _ => false
       | Except.ok p => truthyBytes p && (decodeHistory (p.getD [])).isSome)

/-- A small two-turn history used in concrete runs. -/
def demoHistory : ConversationHistory := [⟨"user", ["hi"]⟩, ⟨"model", ["hello"]⟩]

/-- Oracle for a run on which every external call succeeds. -/
def envOk : ChatEnv :=
  ⟨GetOutcome.ok, CallOutcome.ok, "newtok", SendOutcome.reply "hello" demoHistory,
    CallOutcome.ok⟩

/-- Oracle for a run on which chat.send_message raises StopCandidateException. -/
def envStop : ChatEnv :=
  ⟨GetOutcome.ok, CallOutcome.ok, "newtok", SendOutcome.stopCandidate, CallOutcome.ok⟩

/-- Oracle for a summarize run on which every external call succeeds. -/
def sumEnvOk : SumEnv := ⟨CallOutcome.ok, SendOutcome.reply "a summary" []⟩

/-- A cache holding one well-formed conversation under the key tok. -/
def demoCache : CacheState := emptyCache.setex "tok" HOUR_TIMEDELTA (encodeHistory demoHistory) 0

/-! ## Codec lemmas and claim C8 -/

theorem concatMap_singleton (f : α → Nat) (xs : List α) :
    concatMap (fun a => [f a]) xs = xs.map f := by
  induction xs with
  | nil => rfl
  | cons x xs ih => simp [concatMap, ih]

theorem decodeCount_concatMap {enc : α → Bytes} {dec : Bytes → Option (α × Bytes)}
    (h : RoundTrips enc dec) (xs : List α) (rest : Bytes) :
    decodeCount dec xs.length (concatMap enc xs ++ rest) = some (xs, rest) := by
  induction xs generalizing rest with
  | nil => simp [concatMap, decodeCount]
  | cons x xs ih =>
    simp only [concatMap, List.length_cons, List.append_assoc, decodeCount, h x, ih rest]

theorem roundTrips_char : RoundTrips (fun c => [Char.toNat c]) decodeChar := by
  intro a rest
  simp [decodeChar, Char.ofNat_toNat]

theorem roundTrips_str : RoundTrips encodeStr decodeStr := by
  intro s rest
  have hmap : s.data.map Char.toNat = concatMap (fun c => [Char.toNat c]) s.data :=
    (concatMap_singleton _ _).symm
  simp only [encodeStr, List.cons_append, decodeStr, hmap,
    decodeCount_concatMap roundTrips_char]

theorem roundTrips_turn : RoundTrips encodeTurn decodeTurn := by
  intro t rest
  simp only [encodeTurn, List.append_assoc, List.cons_append, decodeTurn,
    roundTrips_str t.role, decodeCount_concatMap roundTrips_str]

/-- Claim C8: for every ConversationHistory H, decoding the encoding of H yields
H itself, preserving order and contents of the turns (the round-trip property of
the history codec used for cache storage). -/
theorem claim_C8_roundtrip (h : ConversationHistory) :
    decodeHistory (encodeHistory h) = some h := by
  have hc : decodeCount decodeTurn h.length (concatMap encodeTurn h ++ []) = some (h, []) :=
    decodeCount_concatMap roundTrips_turn h []
  rw [List.append_nil] at hc
  simp only [encodeHistory, decodeHistory, hc]

/-! ## Cache lemmas -/

theorem lookup_setex_self (c : CacheState) (k : String) (ttl : Nat) (v : Bytes) (now : Nat) :
    (c.setex k ttl v now).lookup k = some (v, now + ttl) := by
  simp [CacheState.setex, CacheState.lookup, List.find?]

theorem lookup_setex_ne (c : CacheState) {k k' : String} (h : k ≠ k') (ttl : Nat)
    (v : Bytes) (now : Nat) : (c.setex k' ttl v now).lookup k = c.lookup k := by
  have hne : (k' == k) = false := by
    simp only [beq_eq_false_iff_ne]
    exact fun he => h he.symm
  simp only [CacheState.setex, CacheState.lookup, List.find?, hne]
  have hfilter : ∀ es : List (String × Bytes × Nat),
      List.find? (fun e => e.1 == k) (es.filter (fun e => e.1 != k')) =
        List.find? (fun e => e.1 == k) es := by
    intro es
    induction es with
    | nil => rfl
    | cons e es ih =>
      by_cases hk : e.1 = k
      · subst hk
        have h1 : (e.1 != k') = true := by simp only [bne_iff_ne, ne_eq]; exact h
        simp [List.filter, h1, List.find?]
      · have h2 : (e.1 == k) = false := by simp [hk]
        by_cases hk' : e.1 = k'
        · have h1 : (e.1 != k') = false := by simp [bne_iff_ne, hk']
          simp [List.filter, h1, List.find?, h2, ih]
        · have h1 : (e.1 != k') = true := by simp only [bne_iff_ne, ne_eq]; exact hk'
          simp [List.filter, h1, List.find?, h2, ih]
  rw [hfilter]

/-! ## Claim C1 -/

/-- Claim C1 (code bug evaluation): the claim says a missing body yields an
unsupported-media-type signal and a missing or empty message (resp. url) field
a bad-request signal, the response being the 4xx itself.  In the source the
abort(415)/abort(400) calls sit inside the handler's own try, and its
except Exception clause catches the HTTPException they raise, so both handlers
answer HTTP 200 with the generic failure JSON.  The no-backend-interaction half
of the claim does hold: the effect trace is empty. -/
theorem claim_C1_code_eval :
    chat_gemini none none emptyCache envOk = (⟨outOfServiceMsg, 200⟩, none, []) ∧
    chat_gemini (some []) none emptyCache envOk = (⟨outOfServiceMsg, 200⟩, none, []) ∧
    chat_gemini (some [("message", "")]) none emptyCache envOk
      = (⟨outOfServiceMsg, 200⟩, none, []) ∧
    summarize none sumEnvOk = (SumResp.failure summarizeErrMsg 200, []) ∧
    summarize (some []) sumEnvOk = (SumResp.failure summarizeErrMsg 200, []) ∧
    summarize (some [("url", "")]) sumEnvOk = (SumResp.failure summarizeErrMsg 200, []) :=
  ⟨rfl, rfl, rfl, rfl, rfl, rfl⟩

/-! ## Claim C2 -/

/-- Claim C2 (counterexample): on GET /api/chat/list, a present cache entry
whose bytes fail to decode makes pickle.loads raise with no surrounding
catch-all, so the exception propagates to the framework error page, refuting
the claim that every conversational-flow exception is caught at the request
boundary for both conversational endpoints. -/
theorem claim_C2_cex :
    (chat_history_list (some "t") ⟨[("t", [1], 0)]⟩ GetOutcome.ok).1 = Except.error 500 :=
  rfl

/-- Claim C2 (amended): for POST /api/chat/send every exception raised during
the conversational flow is caught at the request boundary and converted into a
JSON message with status 200; for GET /api/chat/list only the client-level
UnicodeDecodeError is handled, and a decode failure on a present, non-empty
cache entry propagates to the framework error page. -/
theorem claim_C2_amended :
    (∀ b s c e, (chat_gemini b s c e).1.status = 200) ∧
    (∀ (t : String) (c : CacheState) (bs : Bytes),
      (c.lookup t).map Prod.fst = some bs → bs ≠ [] → decodeHistory bs = none →
      (chat_history_list (some t) c GetOutcome.ok).1 = Except.error 500) := by
  constructor
  · intro b s c e
    cases hb : truthyJson b with
    | false => simp [chat_gemini, hb]
    | true =>
      cases hq : truthyStr (jsonGet (b.getD []) "message") with
      | false => simp [chat_gemini, hb, hq]
      | true =>
        cases s with
        | none =>
          cases hc : e.createOutcome with
          | ok =>
            simp only [chat_gemini, hb, hq, if_true, hc]
            cases hs : e.sendOutcome <;> cases hx : e.setexOutcome <;>
              simp [sendPhase, hs, hx]
          | raiseErr => simp [chat_gemini, hb, hq, hc]
        | some t =>
          cases hf : fetchPayload ((c.lookup t).map Prod.fst) e.getOutcome with
          | error u => simp [chat_gemini, hb, hq, hf, resumeAfterFetch]
          | ok p =>
            cases hp : truthyBytes p with
            | false => simp [chat_gemini, hb, hq, hf, resumeAfterFetch, hp]
            | true =>
              cases hd : decodeHistory (p.getD []) with
              | none => simp [chat_gemini, hb, hq, hf, resumeAfterFetch, hp, hd]
              | some hist =>
                cases hc : e.createOutcome with
                | ok =>
                  simp only [chat_gemini, hb, hq, if_true, hf, resumeAfterFetch, hp, hd, hc]
                  cases hs : e.sendOutcome <;> cases hx : e.setexOutcome <;>
                    simp [sendPhase, hs, hx]
                | raiseErr => simp [chat_gemini, hb, hq, hf, resumeAfterFetch, hp, hd, hc]
  · intro t c bs h1 h2 h3
    have htb : truthyBytes (some bs) = true := by
      cases bs with
      | nil => exact absurd rfl h2
      | cons x xs => rfl
    simp [chat_history_list, h1, fetchPayload, listAfterFetch, htb, h3]

/-- Claim C2 (witness): a concrete send whose boundary answers 200, and a
concrete malformed present entry on which the list endpoint propagates. -/
theorem claim_C2_witness :
    (chat_gemini (some [("message", "hi")]) none emptyCache envOk).1.status = 200 ∧
    (chat_history_list (some "u") ⟨[("u", [1], 0)]⟩ GetOutcome.ok).1 = Except.error 500 :=
  ⟨claim_C2_amended.1 (some [("message", "hi")]) none emptyCache envOk,
    claim_C2_amended.2 "u" ⟨[("u", [1], 0)]⟩ [1] rfl (by decide) rfl⟩

/-! ## Claim C9 -/

/-- Claim C9 (counterexample): the retry-after value is computed as the Python
timedelta seconds component of reset minus now; when the limiter window resets
at the very instant of the rejection (or less than one second later) that
component is 0, which is not a positive integer, refuting the claim that every
reset timestamp at or after the rejection gives a positive value. -/
theorem claim_C9_cex :
    (ratelimit_handler 0 0).2 = 429 ∧ (ratelimit_handler 0 0).1 = 0 ∧
      ¬ 0 < (ratelimit_handler 0 0).1 := by
  refine ⟨rfl, by decide, by decide⟩

/-- Claim C9 (amended): for every rejection, the response status is 429 and the
retry-after value computed from any reset timestamp at or after the rejection is
a nonnegative integer number of seconds, below one day (it is 0 when the reset
is less than one second away). -/
theorem claim_C9_amended (now reset : Int) (_h : now ≤ reset) :
    (ratelimit_handler now reset).2 = 429 ∧
    0 ≤ (ratelimit_handler now reset).1 ∧ (ratelimit_handler now reset).1 < 86400 := by
  refine ⟨rfl, ?_, ?_⟩ <;>
    · simp only [ratelimit_handler, timedeltaSeconds, MICROSECONDS_PER_DAY,
        MICROSECONDS_PER_SECOND]
      omega

/-- Claim C3 (counterexample): on a concrete fully successful send, the trace
is create, send, session bind, cache write — the session bind (index 2) comes
strictly before the cache write (index 3), refuting the claim that the cache
write is performed first and only then the token is bound into the session. -/
theorem claim_C3_cex :
    idxOfP isSessionBind
        (chat_gemini (some [("message", "hi")]) none emptyCache envOk).2.2 = some 2 ∧
    idxOfP isCacheSet
        (chat_gemini (some [("message", "hi")]) none emptyCache envOk).2.2 = some 3 ∧
    ¬ (3 : Nat) < 2 :=
  ⟨rfl, rfl, by decide⟩

/-- Claim C3 (amended): on every send, whenever the request performs the cache
write at all, the session bind has already been performed strictly earlier: the
source assigns session["chatID"] on line 157 and only then calls setex on
line 158. -/
theorem claim_C3_amended :
    ∀ b s c e, bindBeforeSet (chat_gemini b s c e).2.2 = true := by
  intro b s c e
  have hsend : ∀ (q id : String) (sess : Option String) (tr : List Effect),
      tr = [] ∨ tr = [Effect.chatCreate false] ∨
        (∃ t0, tr = [Effect.cacheGet t0, Effect.chatCreate true]) →
      bindBeforeSet (sendPhase q id sess e tr).2.2 = true := by
    intro q id sess tr htr
    cases hs : e.sendOutcome with
    | stopCandidate =>
      rcases htr with h | h | ⟨t0, h⟩ <;> subst h <;>
        simp [sendPhase, hs, bindBeforeSet, idxOfP, isSessionBind, isCacheSet]
    | raiseErr =>
      rcases htr with h | h | ⟨t0, h⟩ <;> subst h <;>
        simp [sendPhase, hs, bindBeforeSet, idxOfP, isSessionBind, isCacheSet]
    | reply text newHist =>
      cases hx : e.setexOutcome with
      | ok =>
        rcases htr with h | h | ⟨t0, h⟩ <;> subst h <;>
          simp [sendPhase, hs, hx, bindBeforeSet, idxOfP, isSessionBind, isCacheSet]
      | raiseErr =>
        rcases htr with h | h | ⟨t0, h⟩ <;> subst h <;>
          simp [sendPhase, hs, hx, bindBeforeSet, idxOfP, isSessionBind, isCacheSet]
  cases hb : truthyJson b with
  | false => simp [chat_gemini, hb, bindBeforeSet, idxOfP]
  | true =>
    cases hq : truthyStr (jsonGet (b.getD []) "message") with
    | false => simp [chat_gemini, hb, hq, bindBeforeSet, idxOfP]
    | true =>
      cases s with
      | none =>
        cases hc : e.createOutcome with
        | ok =>
          simp only [chat_gemini, hb, hq, if_true, hc]
          exact hsend _ _ _ _ (Or.inr (Or.inl rfl))
        | raiseErr =>
          simp [chat_gemini, hb, hq, hc, bindBeforeSet, idxOfP, isSessionBind, isCacheSet]
      | some t =>
        cases hf : fetchPayload ((c.lookup t).map Prod.fst) e.getOutcome with
        | error u =>
          simp [chat_gemini, hb, hq, hf, resumeAfterFetch, bindBeforeSet, idxOfP,
            isSessionBind, isCacheSet]
        | ok p =>
          cases hp : truthyBytes p with
          | false =>
            simp [chat_gemini, hb, hq, hf, resumeAfterFetch, hp, bindBeforeSet, idxOfP,
              isSessionBind, isCacheSet]
          | true =>
            cases hd : decodeHistory (p.getD []) with
            | none =>
              simp [chat_gemini, hb, hq, hf, resumeAfterFetch, hp, hd, bindBeforeSet,
                idxOfP, isSessionBind, isCacheSet]
            | some hist =>
              cases hc : e.createOutcome with
              | ok =>
                simp only [chat_gemini, hb, hq, if_true, hf, resumeAfterFetch, hp, hd, hc]
                exact hsend _ _ _ _ (Or.inr (Or.inr ⟨t, rfl⟩))
              | raiseErr =>
                simp [chat_gemini, hb, hq, hf, resumeAfterFetch, hp, hd, hc,
                  bindBeforeSet, idxOfP, isSessionBind, isCacheSet]

/-- Claim C4: with a valid body and message, a token in the session and a cache
fetch that yields an absent or empty payload, the response is exactly the
expired-session message with status 200, the session binding is unchanged, the
only effect is the cache read, and the cache state is unchanged: no new token
is minted, no chat-backend call is made, no entry is written. -/
theorem claim_C4 (b : Option Json) (t : String) (c : CacheState) (e : ChatEnv)
    (p : Option Bytes)
    (h1 : truthyJson b = true)
    (h2 : truthyStr (jsonGet (b.getD []) "message") = true)
    (h3 : fetchPayload ((c.lookup t).map Prod.fst) e.getOutcome = Except.ok p)
    (h4 : truthyBytes p = false) :
    chat_gemini b (some t) c e = (⟨expiredMsg, 200⟩, some t, [Effect.cacheGet t]) ∧
    ∀ now, applyEffects now c (chat_gemini b (some t) c e).2.2 = c := by
  have hmain : chat_gemini b (some t) c e
      = (⟨expiredMsg, 200⟩, some t, [Effect.cacheGet t]) := by
    simp [chat_gemini, h1, h2, h3, resumeAfterFetch, h4]
  exact ⟨hmain, fun now => by rw [hmain]; rfl⟩

/-- Claim C4 (witness): a concrete request with a session token whose cache
entry is absent answers the expired-session message and leaves everything
untouched. -/
theorem claim_C4_witness :
    truthyJson (some [("message", "hi")]) = true ∧
    chat_gemini (some [("message", "hi")]) (some "tok") emptyCache envOk
      = (⟨expiredMsg, 200⟩, some "tok", [Effect.cacheGet "tok"]) :=
  ⟨by decide,
    (claim_C4 (some [("message", "hi")]) "tok" emptyCache envOk none
      (by decide) (by decide) rfl rfl).1⟩

/-- Claim C5: every cache write performed by the send handler carries exactly
the one-hour TTL, the list handler never writes, a cache read leaves the cache
state untouched, a write sets the entry expiry to exactly the write instant
plus its TTL, and over any sequence of effects an entry that is never written
keeps its value and expiry unchanged — the TTL is only ever refreshed by
writes. -/
theorem claim_C5 :
    (∀ b s c e, ((chat_gemini b s c e).2.2.all setsHourTTL) = true) ∧
    (∀ s c g, ((chat_history_list s c g).2.all (fun eff => !isCacheSet eff)) = true) ∧
    (∀ now c k, applyEffect now c (Effect.cacheGet k) = c) ∧
    (∀ now c k ttl v,
      (applyEffect now c (Effect.cacheSet k ttl v)).lookup k = some (v, now + ttl)) ∧
    (∀ tr now c k, tr.all (notSetOn k) = true →
      (applyEffects now c tr).lookup k = c.lookup k) := by
  refine ⟨?_, ?_, ?_, ?_, ?_⟩
  · intro b s c e
    have hsend : ∀ (q id : String) (sess : Option String) (tr : List Effect),
        tr.all setsHourTTL = true → (sendPhase q id sess e tr).2.2.all setsHourTTL = true := by
      intro q id sess tr htr
      cases hs : e.sendOutcome with
      | stopCandidate => simp [sendPhase, hs, List.all_append, htr, setsHourTTL]
      | raiseErr => simp [sendPhase, hs, List.all_append, htr, setsHourTTL]
      | reply text newHist =>
        cases hx : e.setexOutcome with
        | ok => simp [sendPhase, hs, hx, List.all_append, htr, setsHourTTL]
        | raiseErr => simp [sendPhase, hs, hx, List.all_append, htr, setsHourTTL]
    cases hb : truthyJson b with
    | false => simp [chat_gemini, hb]
    | true =>
      cases hq : truthyStr (jsonGet (b.getD []) "message") with
      | false => simp [chat_gemini, hb, hq]
      | true =>
        cases s with
        | none =>
          cases hc : e.createOutcome with
          | ok =>
            simp only [chat_gemini, hb, hq, if_true, hc]
            exact hsend _ _ _ _ (by simp [setsHourTTL])
          | raiseErr => simp [chat_gemini, hb, hq, hc, setsHourTTL]
        | some t =>
          cases hf : fetchPayload ((c.lookup t).map Prod.fst) e.getOutcome with
          | error u => simp [chat_gemini, hb, hq, hf, resumeAfterFetch, setsHourTTL]
          | ok p =>
            cases hp : truthyBytes p with
            | false => simp [chat_gemini, hb, hq, hf, resumeAfterFetch, hp, setsHourTTL]
            | true =>
              cases hd : decodeHistory (p.getD []) with
              | none => simp [chat_gemini, hb, hq, hf, resumeAfterFetch, hp, hd, setsHourTTL]
              | some hist =>
                cases hc : e.createOutcome with
                | ok =>
                  simp only [chat_gemini, hb, hq, if_true, hf, resumeAfterFetch, hp, hd, hc]
                  exact hsend _ _ _ _ (by simp [setsHourTTL])
                | raiseErr =>
                  simp [chat_gemini, hb, hq, hf, resumeAfterFetch, hp, hd, hc, setsHourTTL]
  · intro s c g
    cases s with
    | none => simp [chat_history_list]
    | some t =>
      cases hf : fetchPayload ((c.lookup t).map Prod.fst) g with
      | error u => simp [chat_history_list, hf, listAfterFetch, isCacheSet]
      | ok p =>
        cases hp : truthyBytes p with
        | false => simp [chat_history_list, hf, listAfterFetch, hp, isCacheSet]
        | true =>
          cases hd : decodeHistory (p.getD []) with
          | none => simp [chat_history_list, hf, listAfterFetch, hp, hd, isCacheSet]
          | some hist => simp [chat_history_list, hf, listAfterFetch, hp, hd, isCacheSet]
  · intro now c k
    rfl
  · intro now c k ttl v
    exact lookup_setex_self c k ttl v now
  · intro tr
    induction tr with
    | nil => intro now c k hall; rfl
    | cons eff tr ih =>
      intro now c k hall
      rw [List.all_cons, Bool.and_eq_true] at hall
      obtain ⟨h1, h2⟩ := hall
      have hstep : (applyEffect now c eff).lookup k = c.lookup k := by
        cases eff with
        | cacheSet k2 ttl v =>
          have hne : k ≠ k2 := by
            simp only [notSetOn, Bool.not_eq_true'] at h1
            intro he
            rw [he] at h1
            simp at h1
          exact lookup_setex_ne c hne ttl v now
        | cacheGet k2 => rfl
        | sessionBind k2 => rfl
        | chatCreate r => rfl
        | chatSend m => rfl
      have : applyEffects now c (eff :: tr) = applyEffects now (applyEffect now c eff) tr := rfl
      rw [this, ih now (applyEffect now c eff) k h2, hstep]

/-- Claim C5 (witness): the trace of a concrete successful send has all its
writes at the one-hour TTL, and applying a trace that never writes the key
leaves its entry unchanged. -/
theorem claim_C5_witness :
    ((chat_gemini (some [("message", "hi")]) none emptyCache envOk).2.2.all setsHourTTL
      = true) ∧
    (applyEffects 5 demoCache [Effect.cacheGet "tok"]).lookup "tok" = demoCache.lookup "tok" :=
  ⟨claim_C5.1 (some [("message", "hi")]) none emptyCache envOk,
    claim_C5.2.2.2.2 [Effect.cacheGet "tok"] 5 demoCache "tok" (by decide)⟩

/-- Claim C6: on every request that reaches the chat-backend send and on which
the backend rejects the content with StopCandidateException, the response is
exactly the fixed message I cannot answer that with status 200, the session
chatID binding is unchanged, and the cache contents are exactly as before the
request. -/
theorem claim_C6 (b : Option Json) (s : Option String) (c : CacheState) (e : ChatEnv)
    (h : reachesSend b s c e = true)
    (hs : e.sendOutcome = SendOutcome.stopCandidate) :
    (chat_gemini b s c e).1 = ⟨cannotAnswerMsg, 200⟩ ∧
    (chat_gemini b s c e).2.1 = s ∧
    ∀ now, applyEffects now c (chat_gemini b s c e).2.2 = c := by
  simp only [reachesSend, Bool.and_eq_true] at h
  obtain ⟨⟨⟨h1, h2⟩, h3⟩, h4⟩ := h
  cases s with
  | none =>
    cases hc : e.createOutcome with
    | ok =>
      have hmain : chat_gemini b none c e
          = (⟨cannotAnswerMsg, 200⟩, none,
              [Effect.chatCreate false, Effect.chatSend ((jsonGet (b.getD []) "message").getD "")]) := by
        simp [chat_gemini, h1, h2, hc, sendPhase, hs]
      exact ⟨by rw [hmain], by rw [hmain], fun now => by rw [hmain]; rfl⟩
    | raiseErr => rw [hc] at h3; simp [outcomeOk] at h3
  | some t =>
    cases hf : fetchPayload ((c.lookup t).map Prod.fst) e.getOutcome with
    | error u =>
      simp only [hf] at h4
      exact absurd h4 (by simp)
    | ok p =>
      simp only [hf, Bool.and_eq_true] at h4
      obtain ⟨hp, hd⟩ := h4
      obtain ⟨hist, hdh⟩ := Option.isSome_iff_exists.mp hd
      cases hc : e.createOutcome with
      | ok =>
        have hmain : chat_gemini b (some t) c e
            = (⟨cannotAnswerMsg, 200⟩, some t,
                [Effect.cacheGet t, Effect.chatCreate true,
                  Effect.chatSend ((jsonGet (b.getD []) "message").getD "")]) := by
          simp [chat_gemini, h1, h2, hf, resumeAfterFetch, hp, hdh, hc, sendPhase, hs]
        exact ⟨by rw [hmain], by rw [hmain], fun now => by rw [hmain]; rfl⟩
      | raiseErr => rw [hc] at h3; simp [outcomeOk] at h3

/-- Claim C6 (witness): a concrete request that reaches the backend and gets a
content rejection answers the fixed message with the session unchanged. -/
theorem claim_C6_witness :
    reachesSend (some [("message", "hi")]) none emptyCache envStop = true ∧
    (chat_gemini (some [("message", "hi")]) none emptyCache envStop).1
      = ⟨cannotAnswerMsg, 200⟩ :=
  ⟨by decide,
    (claim_C6 (some [("message", "hi")]) none emptyCache envStop (by decide) rfl).1⟩

theorem resumeAfterFetch_getOutcome (q id : String) (sess : Option String)
    (g1 g2 : GetOutcome) (co : CallOutcome) (nid : String) (so : SendOutcome)
    (xo : CallOutcome) (f : Except Unit (Option Bytes)) :
    resumeAfterFetch q id sess ⟨g1, co, nid, so, xo⟩ f
      = resumeAfterFetch q id sess ⟨g2, co, nid, so, xo⟩ f := rfl

/-- Claim C7: when the client-level decoding step of a cache get raises a
UnicodeDecodeError carrying a non-empty raw byte payload, both the send and the
list handlers use exactly those raw bytes and do not treat the key as absent:
each behaves identically to a run in which the store held those bytes and the
get decoded cleanly. -/
theorem claim_C7 (b : Option Json) (t : String) (c : CacheState) (obj : Bytes)
    (g : CallOutcome) (nid : String) (so : SendOutcome) (xo : CallOutcome)
    (h : obj ≠ []) :
    fetchPayload ((c.lookup t).map Prod.fst) (GetOutcome.unicodeErr obj)
      = Except.ok (some obj) ∧
    truthyBytes (some obj) = true ∧
    chat_gemini b (some t) c ⟨GetOutcome.unicodeErr obj, g, nid, so, xo⟩
      = chat_gemini b (some t) (c.setex t HOUR_TIMEDELTA obj 0)
          ⟨GetOutcome.ok, g, nid, so, xo⟩ ∧
    chat_history_list (some t) c (GetOutcome.unicodeErr obj)
      = chat_history_list (some t) (c.setex t HOUR_TIMEDELTA obj 0) GetOutcome.ok := by
  have htb : truthyBytes (some obj) = true := by
    cases obj with
    | nil => exact absurd rfl h
    | cons x xs => rfl
  have hl : ((c.setex t HOUR_TIMEDELTA obj 0).lookup t).map Prod.fst = some obj := by
    rw [lookup_setex_self]
    rfl
  refine ⟨rfl, htb, ?_, ?_⟩
  · cases hb : truthyJson b with
    | false => simp [chat_gemini, hb]
    | true =>
      cases hq : truthyStr (jsonGet (b.getD []) "message") with
      | false => simp [chat_gemini, hb, hq]
      | true =>
        simp only [chat_gemini, hb, hq, if_true, hl, fetchPayload]
        exact resumeAfterFetch_getOutcome _ _ _ _ _ _ _ _ _ _
  · simp only [chat_history_list, hl, fetchPayload]

/-- Claim C7 (witness): with a concrete non-empty raw payload attached to the
decode error, the list endpoint renders the same output as if the store held
those bytes. -/
theorem claim_C7_witness :
    ([0] : Bytes) ≠ [] ∧
    chat_history_list (some "t") emptyCache (GetOutcome.unicodeErr [0])
      = chat_history_list (some "t") (emptyCache.setex "t" HOUR_TIMEDELTA [0] 0)
          GetOutcome.ok :=
  ⟨by decide,
    (claim_C7 (some [("message", "hi")]) "t" emptyCache [0] CallOutcome.ok "n"
      (SendOutcome.reply "r" []) CallOutcome.ok (by decide)).2.2.2⟩

/-- Claim C10: on every request on which the chat-backend send raises any
exception — the content-policy rejection or any other — the session chatID
binding and the cache contents are left exactly as they were: the session write
and the cache write happen only after a successful send. -/
theorem claim_C10 (b : Option Json) (s : Option String) (c : CacheState) (e : ChatEnv)
    (h : e.sendOutcome = SendOutcome.stopCandidate ∨ e.sendOutcome = SendOutcome.raiseErr) :
    (chat_gemini b s c e).2.1 = s ∧
    ∀ now, applyEffects now c (chat_gemini b s c e).2.2 = c := by
  have hsend : ∀ (q id : String) (sess : Option String) (tr : List Effect),
      (sendPhase q id sess e tr).2.1 = sess ∧
      (sendPhase q id sess e tr).2.2 = tr ++ [Effect.chatSend q] := by
    intro q id sess tr
    rcases h with hs | hs <;> simp [sendPhase, hs]
  cases hb : truthyJson b with
  | false => exact ⟨by simp [chat_gemini, hb], fun now => by simp [chat_gemini, hb]; rfl⟩
  | true =>
    cases hq : truthyStr (jsonGet (b.getD []) "message") with
    | false =>
      exact ⟨by simp [chat_gemini, hb, hq], fun now => by simp [chat_gemini, hb, hq]; rfl⟩
    | true =>
      cases s with
      | none =>
        cases hc : e.createOutcome with
        | ok =>
          have hm := hsend ((jsonGet (b.getD []) "message").getD "") e.newChatID none
            [Effect.chatCreate false]
          constructor
          · simp only [chat_gemini, hb, hq, if_true, hc]
            exact hm.1
          · intro now
            simp only [chat_gemini, hb, hq, if_true, hc, hm.2]
            rfl
        | raiseErr =>
          exact ⟨by simp [chat_gemini, hb, hq, hc],
            fun now => by simp [chat_gemini, hb, hq, hc]; rfl⟩
      | some t =>
        cases hf : fetchPayload ((c.lookup t).map Prod.fst) e.getOutcome with
        | error u =>
          exact ⟨by simp [chat_gemini, hb, hq, hf, resumeAfterFetch],
            fun now => by simp [chat_gemini, hb, hq, hf, resumeAfterFetch]; rfl⟩
        | ok p =>
          cases hp : truthyBytes p with
          | false =>
            exact ⟨by simp [chat_gemini, hb, hq, hf, resumeAfterFetch, hp],
              fun now => by simp [chat_gemini, hb, hq, hf, resumeAfterFetch, hp]; rfl⟩
          | true =>
            cases hd : decodeHistory (p.getD []) with
            | none =>
              exact ⟨by simp [chat_gemini, hb, hq, hf, resumeAfterFetch, hp, hd],
                fun now => by simp [chat_gemini, hb, hq, hf, resumeAfterFetch, hp, hd]; rfl⟩
            | some hist =>
              cases hc : e.createOutcome with
              | ok =>
                have hm := hsend ((jsonGet (b.getD []) "message").getD "") t (some t)
                  [Effect.cacheGet t, Effect.chatCreate true]
                constructor
                · simp only [chat_gemini, hb, hq, if_true, hf, resumeAfterFetch, hp, hd, hc]
                  exact hm.1
                · intro now
                  simp only [chat_gemini, hb, hq, if_true, hf, resumeAfterFetch, hp, hd, hc,
                    hm.2]
                  rfl
              | raiseErr =>
                exact ⟨by simp [chat_gemini, hb, hq, hf, resumeAfterFetch, hp, hd, hc],
                  fun now => by simp [chat_gemini, hb, hq, hf, resumeAfterFetch, hp, hd, hc]; rfl⟩

/-- Claim C10 (witness): a concrete resumed send on which the backend raises
leaves the session binding untouched. -/
theorem claim_C10_witness :
    (envStop.sendOutcome = SendOutcome.stopCandidate ∨
      envStop.sendOutcome = SendOutcome.raiseErr) ∧
    (chat_gemini (some [("message", "hi")]) (some "tok") demoCache envStop).2.1
      = some "tok" :=
  ⟨Or.inl rfl,
    (claim_C10 (some [("message", "hi")]) (some "tok") demoCache envStop (Or.inl rfl)).1⟩

/-- Claim C9 (witness): a rejection whose window resets two seconds later gets
status 429 and a nonnegative retry-after value. -/
theorem claim_C9_witness :
    (0 : Int) ≤ 2000000 ∧
    ((ratelimit_handler 0 2000000).2 = 429 ∧
      0 ≤ (ratelimit_handler 0 2000000).1 ∧ (ratelimit_handler 0 2000000).1 < 86400) :=
  ⟨by decide, claim_C9_amended 0 2000000 (by decide)⟩

end Stargazer
